import Mathlib

/-!
Verification development for the KaNiLS command-line front-end
(src/main.rs, src/handle.rs) over a shallow embedding of its code.

Conventions of the embedding:
* Rust `u64`/`u128`/`u16` arithmetic is modelled on `Nat` with explicit
  `% 2^w` where the source can overflow, and value-range guards where the
  source's `parse::<uN>().unwrap()` would panic on overflow.
* `f64` arithmetic in the benchmark sizing is modelled on `ℚ` (the sizes
  involved are far below 2^53, where `f64` is exact on the integers that
  occur, and the spec itself states the sizing in exact real arithmetic);
  the Rust `as u64` truncating cast on a non-negative float is `Int.floor`
  followed by `Int.toNat`.
* The storage engine (the external `cannyls` crate) is not part of this
  repository; where a claim depends on its behaviour it is modelled from
  the spec's collaborator interface (spec §6) as a key-value map, and
  engine journal operations are abstracted as injected `Except` outcomes.
* Rust panics (`unwrap`/`track_try_unwrap!`/`panic!`) are modelled as a
  distinguished fatal outcome (`Option` = `none`, or an explicit
  constructor), never silently ignored.
-/

/-! Section: REPL grammar (src/main.rs, `handle_input`, lines 153-202)

The dispatcher probes the input line against four anchored regexes, in
order, then against exact literals:
  put_regex       = `^put\s+([0-9]+)\s+([^\x00]+)$`
  get_regex       = `^get\s+([0-9]+)$`
  delete_regex    = `^delete\s*([0-9]+)$`
  metrics_server  = `^start_metrics_server\s*([0-9]+)$`
The Rust `regex` crate matches with leftmost-first (greedy, backtracking
preference) semantics.  For these anchored patterns greedy matching is
maximal-munch on each `\s+`/`[0-9]+` run, with one exception: in
`put_regex`, when the line ends right after the second whitespace run,
the engine backtracks one whitespace character out of `\s+` into
`[^\x00]+`, so a line such as `put 5<space><tab>` matches with value
`"\t"`.  The functions below embed exactly that behaviour.
-/

/-- Unicode code points matched by `\s` in the Rust `regex` crate
(Unicode `White_Space`). -/
def wsCodes : List Nat :=
  [0x9, 0xA, 0xB, 0xC, 0xD, 0x20, 0x85, 0xA0, 0x1680,
   0x2000, 0x2001, 0x2002, 0x2003, 0x2004, 0x2005, 0x2006, 0x2007,
   0x2008, 0x2009, 0x200A, 0x2028, 0x2029, 0x202F, 0x205F, 0x3000]

/-- Character class `\s`. -/
def isWsChar (c : Char) : Bool := wsCodes.contains c.toNat

/-- Character class `[0-9]`. -/
def isDigitChar (c : Char) : Bool := 0x30 ≤ c.toNat && c.toNat ≤ 0x39

/-- Character class `\x00` (the NUL byte excluded by `[^\x00]`). -/
def isNulChar (c : Char) : Bool := c.toNat = 0

/-- Value of a digit string, as Rust's `str::parse` computes it
(leading zeros allowed). -/
def digitsToNat (l : List Char) : Nat :=
  l.foldl (fun a c => 10 * a + (c.toNat - 0x30)) 0

/-- Match of `put_regex` = `^put\s+([0-9]+)\s+([^\x00]+)$` against a line,
returning the two capture groups (key digits as a number, value).
`none` means the regex does not match. -/
def parsePut (l : List Char) : Option (Nat × List Char) :=
  match l with
  | 'p' :: 'u' :: 't' :: r =>
    let w1 := r.takeWhile isWsChar
    let r1 := r.dropWhile isWsChar
    if w1.isEmpty then none else
    let ds := r1.takeWhile isDigitChar
    let r2 := r1.dropWhile isDigitChar
    if ds.isEmpty then none else
    let w2 := r2.takeWhile isWsChar
    let r3 := r2.dropWhile isWsChar
    if w2.isEmpty then none
    else if r3.isEmpty then
      -- backtracking: `$` right after `\s+` forces one whitespace
      -- character back into the value group, if `\s+` keeps at least one
      if 2 ≤ w2.length then some (digitsToNat ds, [w2.getLastD ' ']) else none
    else if r3.any isNulChar then none
    else some (digitsToNat ds, r3)
  | _ => none

/-- Match of `get_regex` = `^get\s+([0-9]+)$`. -/
def parseGet (l : List Char) : Option Nat :=
  match l with
  | 'g' :: 'e' :: 't' :: r =>
    let w1 := r.takeWhile isWsChar
    let r1 := r.dropWhile isWsChar
    if w1.isEmpty then none else
    let ds := r1.takeWhile isDigitChar
    let r2 := r1.dropWhile isDigitChar
    if ds.isEmpty then none
    else if r2.isEmpty then some (digitsToNat ds) else none
  | _ => none

/-- Match of `delete_regex` = `^delete\s*([0-9]+)$` (note `\s*`: the
whitespace between the word and the digits is optional). -/
def parseDelete (l : List Char) : Option Nat :=
  match l with
  | 'd' :: 'e' :: 'l' :: 'e' :: 't' :: 'e' :: r =>
    let r1 := r.dropWhile isWsChar
    let ds := r1.takeWhile isDigitChar
    let r2 := r1.dropWhile isDigitChar
    if ds.isEmpty then none
    else if r2.isEmpty then some (digitsToNat ds) else none
  | _ => none

/-- Match of `metrics_server` = `^start_metrics_server\s*([0-9]+)$`
(again `\s*`: optional whitespace). -/
def parseMetricsSrv (l : List Char) : Option Nat :=
  match l with
  | 's' :: 't' :: 'a' :: 'r' :: 't' :: '_' :: 'm' :: 'e' :: 't' :: 'r' :: 'i'
      :: 'c' :: 's' :: '_' :: 's' :: 'e' :: 'r' :: 'v' :: 'e' :: 'r' :: r =>
    let r1 := r.dropWhile isWsChar
    let ds := r1.takeWhile isDigitChar
    let r2 := r1.dropWhile isDigitChar
    if ds.isEmpty then none
    else if r2.isEmpty then some (digitsToNat ds) else none
  | _ => none

/-- Action issued by one REPL line.  `fatal` is the process abort caused
by `parse::<uN>().unwrap()` overflowing; `invalidValue` is the (dead)
rejection branch for a non-UTF-8 put value; `invalid` is the final
"invalid command" report. -/
inductive ReplAction where
  | put (key : Nat) (value : String)
  | get (key : Nat)
  | delete (key : Nat)
  | startMetrics (port : Nat)
  | listCmd
  | dump
  | header
  | journal
  | journalGc
  | metrics
  | startMetricsDefault
  | finishMetrics
  | invalidValue (input : String)
  | invalid (input : String)
  | fatal
  deriving DecidableEq, Repr

/-- Embeds `is_valid_characters` (src/main.rs:130-132):
`std::str::from_utf8(data.as_bytes()).is_ok()`.  The argument is already
a Rust `&str`, hence guaranteed valid UTF-8, so the check is identically
`true`; the Lean `String` type carries the same guarantee. -/
def is_valid_characters (_data : String) : Bool := true

/-- Embeds `handle_input` (src/main.rs:153-202): the priority chain of
regex probes followed by the literal commands.  Key parses are `u128`
(`≥ 2^128` panics the process), the metrics port is `u16`. -/
def handle_input (input : String) : ReplAction :=
  match parsePut input.data with
  | some (k, v) =>
    if 2 ^ 128 ≤ k then ReplAction.fatal
    else if is_valid_characters (String.mk v) then ReplAction.put k (String.mk v)
    else ReplAction.invalidValue input
  | none =>
  match parseGet input.data with
  | some k => if 2 ^ 128 ≤ k then ReplAction.fatal else ReplAction.get k
  | none =>
  match parseDelete input.data with
  | some k => if 2 ^ 128 ≤ k then ReplAction.fatal else ReplAction.delete k
  | none =>
  match parseMetricsSrv input.data with
  | some p => if 2 ^ 16 ≤ p then ReplAction.fatal else ReplAction.startMetrics p
  | none =>
  if input = "list" then ReplAction.listCmd
  else if input = "dump" then ReplAction.dump
  else if input = "header" then ReplAction.header
  else if input = "journal" then ReplAction.journal
  else if input = "journal_gc" then ReplAction.journalGc
  else if input = "metrics" then ReplAction.metrics
  else if input = "start_metrics_server" then ReplAction.startMetricsDefault
  else if input = "finish_metrics_server" then ReplAction.finishMetrics
  else ReplAction.invalid input

example : handle_input "put 42 hello world" = ReplAction.put 42 "hello world" := by decide
example : handle_input "delete42" = ReplAction.delete 42 := by decide
example : handle_input "start_metrics_server8080" = ReplAction.startMetrics 8080 := by decide
example : handle_input "get 999" = ReplAction.get 999 := by decide
example : handle_input "frobnicate" = ReplAction.invalid "frobnicate" := by decide
example : handle_input "put 42  x" = ReplAction.put 42 "x" := by decide

/-! Section: benchmark sizing (src/main.rs, `create_storage_for_benchmark`,
lines 134-151)

```rust
let total = count * size;            // u64, wraps on overflow
let capacity = total * 2;            // u64, wraps on overflow
let mut journal_ratio = 0.01f64;
if ((capacity as f64 * journal_ratio) as u64) < 256 * count as u64 {
    journal_ratio = (256 * count as u64) as f64 / capacity as f64;
}
FileNvm::create(path, capacity); StorageBuilder::new()
    .journal_region_ratio(journal_ratio).create(nvm)
```
`u64` products are taken `% 2^64`; the `f64` expressions are modelled on
`ℚ` and the non-negative `as u64` cast is `Int.floor`/`Int.toNat`. -/

/-- Result of the sizing computation: the capacity handed to
`FileNvm::create`, the ratio handed to `journal_region_ratio`, and the
`total` returned alongside the storage. -/
structure BenchSizing where
  capacity : Nat
  journal_ratio : ℚ
  total : Nat
  deriving Repr

/-- Embeds `create_storage_for_benchmark` (src/main.rs:134-151). -/
def create_storage_for_benchmark (count size : Nat) : BenchSizing :=
  let total : Nat := count * size % 2 ^ 64
  let capacity : Nat := total * 2 % 2 ^ 64
  let threshold : Nat := 256 * count % 2 ^ 64
  if (⌊(capacity : ℚ) * (1 / 100)⌋).toNat < threshold then
    { capacity := capacity
      journal_ratio := (threshold : ℚ) / (capacity : ℚ)
      total := total }
  else
    { capacity := capacity, journal_ratio := 1 / 100, total := total }

/-! Section: WRBench marching-window workload (src/main.rs, lines 328-362)

```rust
let marching_len = 100;
let mut c = 0;
let mut keystore = Vec::with_capacity(marching_len);
for i in 0..count {
    storage.put(&LumpId::new(i), ...);
    if c < marching_len - 1 {
        keystore.push(lump_id); c += 1;
    } else {           // c == marching_len - 1
        for k in &keystore { let _ = storage.get(k); }
        keystore.clear(); c = 0;
    }
}
```
The trace of engine calls is recorded as a list of events. -/

/-- One engine access issued by the WRBench loop. -/
inductive BenchEvent where
  | write (k : Nat)
  | read (k : Nat)
  deriving DecidableEq, Repr

/-- Embeds `marching_len` of the WRBench loop. -/
def marchingLen : Nat := 100

/-- Loop body of WRBench: remaining indices, counter `c`, `keystore`. -/
def wrBenchGo : List Nat → Nat → List Nat → List BenchEvent
  | [], _, _ => []
  | i :: rest, c, ks =>
    if c < marchingLen - 1 then
      BenchEvent.write i :: wrBenchGo rest (c + 1) (ks ++ [i])
    else
      (BenchEvent.write i :: ks.map BenchEvent.read) ++ wrBenchGo rest 0 []

/-- Engine-access trace of `kanils WRBench --count=count` (the `for i in
0..count` loop with `c = 0` and an empty keystore initially). -/
def wrBenchTrace (count : Nat) : List BenchEvent :=
  wrBenchGo (List.range count) 0 []

/-- What one complete window starting at key `b` contributes to the
trace: 99 plain writes, the 100th write, then read-backs of the first 99
keys (the 100th key of the window is never pushed, hence never read). -/
def windowEvents (b : Nat) : List BenchEvent :=
  (List.range' b (marchingLen - 1)).map BenchEvent.write ++
    (BenchEvent.write (b + (marchingLen - 1)) ::
      (List.range' b (marchingLen - 1)).map BenchEvent.read)

/-! Section: storage facade over the engine (src/handle.rs)

The engine (`cannyls`) is an external crate.  Modelled from the spec:
§6 requires of it `put(key, bytes) -> Result<bool>` (true = newly
inserted), `get(key) -> Result<Option<bytes>>`, with one stored value
per key (§3).  The store is a key-value association list; values stay
as the UTF-8 strings the facade passes down (the engine treats them as
opaque bytes, and `lumpdata_to_string` decodes the same bytes back). -/

/-- Engine store: one value per key. -/
def Store := List (Nat × String)

/-- Engine-side lookup of a key. -/
def lookupKey (k : Nat) : List (Nat × String) → Option String
  | [] => none
  | (k', v) :: rest => if k' = k then some v else lookupKey k rest

/-- Engine-side removal of a key (for overwrite). -/
def removeKey (k : Nat) : List (Nat × String) → List (Nat × String)
  | [] => []
  | (k', v) :: rest => if k' = k then removeKey k rest else (k', v) :: removeKey k rest

/-- Embeds `StorageHandle::put_str` (src/handle.rs:108-113): allocate a
lump from `value.as_bytes()` and `storage.put` it; the engine (modelled
from the spec) returns `true` iff the key was previously absent and
stores the value under the key. -/
def put_str (key : Nat) (value : String) (st : List (Nat × String)) :
    Bool × List (Nat × String) :=
  ((lookupKey key st).isNone, (key, value) :: removeKey key st)

/-- Tag printed by `StorageHandle::put` (src/handle.rs:118-126):
`[new]` when `put_str` returned `true`, `[overwrite]` when `false`. -/
inductive PutReport where
  | newKey
  | overwrote
  deriving DecidableEq, Repr

/-- Embeds `StorageHandle::put` (src/handle.rs:118-126). -/
def put (key : Nat) (value : String) (st : List (Nat × String)) :
    PutReport × List (Nat × String) :=
  let r := put_str key value st
  (if r.1 then PutReport.newKey else PutReport.overwrote, r.2)

/-- Embeds `StorageHandle::get_string` (src/handle.rs:134-139):
`storage.get` then `lumpdata_to_string` (UTF-8 decode of the stored
bytes, the identity on the strings the facade stores). -/
def get_string (key : Nat) (st : List (Nat × String)) : Option String :=
  lookupKey key st

/-- Embeds the `Command::Put` arm of `main` (src/main.rs:279-282): the
CLI value string is handed to `handle.put` unchanged — no UTF-8 or NUL
check sits on this path. -/
def runPutCommand (key : Nat) (data : String) (st : List (Nat × String)) :
    PutReport × List (Nat × String) :=
  put key data st

example : get_string 1 (put_str 1 "hello" []).2 = some "hello" := by decide
example : (put 0 "bar" (put 0 "hoge" []).2).1 = PutReport.overwrote := by decide

/-! Section: metrics-server lifecycle (src/handle.rs, lines 17-99)

`StorageHandle` holds `tx: Option<oneshot::Sender<()>>` and
`port: Option<u16>`.  Only the presence of `tx` and the value of `port`
matter to the lifecycle claims, so the state is embedded as a flag plus
the optional port.  `start_metrics_server` calls `self.port.unwrap()`
in its already-running branch, which panics when `port` is `None`; the
embedding returns `none` for that panic. -/

/-- Lifecycle-relevant fields of `StorageHandle`. -/
structure MetricsState where
  tx : Bool
  port : Option Nat
  deriving DecidableEq, Repr

/-- Message printed by a lifecycle operation. -/
inductive MetricsMsg where
  | alreadyRunning (q : Nat)
  | started (p : Nat)
  | finishing
  | notRunning
  deriving DecidableEq, Repr

/-- Embeds `StorageHandle::start_metrics_server` (src/handle.rs:40-69):
if `tx` is `Some`, report the existing `port.unwrap()` and return with
the state unchanged (`none` = the `unwrap` panicked); otherwise spawn
the server, record `tx` and `port`, and report the new port. -/
def start_metrics_server (p : Nat) (s : MetricsState) :
    Option (MetricsState × MetricsMsg) :=
  if s.tx then
    s.port.map fun q => (s, MetricsMsg.alreadyRunning q)
  else
    some ({ tx := true, port := some p }, MetricsMsg.started p)

/-- Embeds `StorageHandle::finish_metrics_server` (src/handle.rs:73-81):
`self.tx.take()` — on `Some`, send the shutdown signal (tx cleared,
port untouched); on `None`, report "not running" and change nothing. -/
def finish_metrics_server (s : MetricsState) : MetricsState × MetricsMsg :=
  if s.tx then ({ s with tx := false }, MetricsMsg.finishing)
  else (s, MetricsMsg.notRunning)

/-- Embeds the field initialisation of `StorageHandle::new`
(src/handle.rs:83-89): `tx: None, port: None`. -/
def newHandleState : MetricsState := { tx := false, port := none }

/-- Embeds the field initialisation of `StorageHandle::create`
(src/handle.rs:91-99): `tx: None, port: None`. -/
def createHandleState : MetricsState := { tx := false, port := none }

/-- The implicit invariant of `StorageHandle`: whenever `tx` is `Some`,
`port` is `Some` too. -/
def MetricsInv (s : MetricsState) : Prop := s.tx = true → s.port.isSome = true

/-! Section: journal_gc (src/handle.rs, lines 191-200)

```rust
println!("run journal full GC ...");
track_try_unwrap!(self.storage.journal_sync());   // panic on Err
let result = self.storage.journal_gc();
if let Err(error) = result { panic!(...); } else { println!(...); }
```
The two engine operations are external (`cannyls`); their outcomes are
injected as `Except` values, and the run records which engine calls were
made and whether the session aborted (and with what error). -/

/-- An engine journal call made by `StorageHandle::journal_gc`. -/
inductive JCall where
  | sync
  | gc
  deriving DecidableEq, Repr

/-- Embeds `StorageHandle::journal_gc` (src/handle.rs:191-200) with the
engine outcomes `syncRes` and `gcRes` injected: returns the ordered list
of engine calls made, and `some e` when the session aborted fatally
(`track_try_unwrap!` or `panic!`) with error `e`. -/
def journal_gc_run (syncRes gcRes : Except String Unit) :
    List JCall × Option String :=
  match syncRes with
  | Except.error e => ([JCall.sync], some e)
  | Except.ok _ =>
    match gcRes with
    | Except.error e => ([JCall.sync, JCall.gc], some e)
    | Except.ok _ => ([JCall.sync, JCall.gc], none)

/-! Section: helper lemmas about the character classes and list spans -/

/-- A whitespace character is not the NUL byte. -/
lemma ws_not_nul {c : Char} (h : isWsChar c = true) : isNulChar c = false := by
  simp only [isWsChar, wsCodes, List.elem_eq_mem, List.mem_cons,
    List.not_mem_nil, or_false, decide_eq_true_eq] at h
  simp only [isNulChar, decide_eq_false_iff_not]
  omega

/-- A digit character is not whitespace. -/
lemma digit_not_ws {c : Char} (h : isDigitChar c = true) : isWsChar c = false := by
  simp only [isDigitChar, Bool.and_eq_true, decide_eq_true_eq] at h
  simp only [isWsChar, wsCodes, List.elem_eq_mem, List.mem_cons,
    List.not_mem_nil, or_false, decide_eq_false_iff_not]
  omega

/-- A whitespace character is not a digit. -/
lemma ws_not_digit {c : Char} (h : isWsChar c = true) : isDigitChar c = false := by
  simp only [isWsChar, wsCodes, List.elem_eq_mem, List.mem_cons,
    List.not_mem_nil, or_false, decide_eq_true_eq] at h
  simp only [isDigitChar, Bool.and_eq_false_iff, decide_eq_false_iff_not]
  omega

/-- Running `takeWhile` over a block that wholly satisfies `p` followed by an
element that fails `p` returns exactly the block. -/
lemma takeWhile_block {p : Char → Bool} (l1 : List Char) (b : Char) (t : List Char)
    (h1 : ∀ c ∈ l1, p c = true) (hb : p b = false) :
    (l1 ++ b :: t).takeWhile p = l1 := by
  induction l1 with
  | nil => simp [List.takeWhile_cons, hb]
  | cons a l1 ih =>
    have ha : p a = true := h1 a (List.mem_cons_self a l1)
    simp only [List.cons_append, List.takeWhile_cons, ha, if_true]
    rw [ih (fun c hc => h1 c (List.mem_cons_of_mem a hc))]

/-- Running `dropWhile` over a block that wholly satisfies `p` followed by an
element that fails `p` drops exactly the block. -/
lemma dropWhile_block {p : Char → Bool} (l1 : List Char) (b : Char) (t : List Char)
    (h1 : ∀ c ∈ l1, p c = true) (hb : p b = false) :
    (l1 ++ b :: t).dropWhile p = b :: t := by
  induction l1 with
  | nil => simp [List.dropWhile_cons, hb]
  | cons a l1 ih =>
    have ha : p a = true := h1 a (List.mem_cons_self a l1)
    simp only [List.cons_append, List.dropWhile_cons, ha, if_true]
    exact ih (fun c hc => h1 c (List.mem_cons_of_mem a hc))

/-- Applying `getLastD` to a list of `p`-elements with a `p`-default satisfies `p`. -/
lemma getLastD_pred {p : Char → Bool} (l : List Char) (d : Char)
    (hd : p d = true) (hl : ∀ c ∈ l, p c = true) : p (l.getLastD d) = true := by
  induction l generalizing d with
  | nil => exact hd
  | cons a l ih =>
    rw [List.getLastD_cons]
    exact ih a (hl a (List.mem_cons_self a l)) (fun c hc => hl c (List.mem_cons_of_mem a hc))



/-! Section: claim theorems -/

/-- Claim C3: for every key `k` and every UTF-8 value `v` without an
embedded NUL byte, `put(k, v)` followed by `get(k)` returns `v` — the
stored value round-trips unchanged. -/
theorem claim_C3_roundtrip (k : Nat) (v : String) (st : List (Nat × String))
    (_hv : ∀ c ∈ v.data, isNulChar c = false) :
    get_string k (put_str k v st).2 = some v := by
  simp [get_string, put_str, lookupKey]

/-- Witness for C3 at `k = 1`, `v = "hello"`, the empty store. -/
theorem claim_C3_witness :
    (∀ c ∈ ("hello" : String).data, isNulChar c = false) ∧
      get_string 1 (put_str 1 "hello" []).2 = some "hello" :=
  ⟨by decide, claim_C3_roundtrip 1 "hello" [] (by decide)⟩

/-- Claim C4: `put_str` returns `Ok(true)` exactly when the key was
absent before the call and `Ok(false)` exactly when it was present, and
`put` reports this uniformly with `[new]` meaning a newly inserted key. -/
theorem claim_C4_put_reports (k : Nat) (v : String) (st : List (Nat × String)) :
    ((put_str k v st).1 = true ↔ lookupKey k st = none) ∧
      ((put_str k v st).1 = false ↔ lookupKey k st ≠ none) ∧
      ((put k v st).1 = PutReport.newKey ↔ lookupKey k st = none) ∧
      ((put k v st).1 = PutReport.overwrote ↔ lookupKey k st ≠ none) := by
  cases h : lookupKey k st <;> simp [put_str, put, h]

/-- Claim C6: starting the metrics server while it is `Running(q)` is a
no-op that reports the existing port `q` and leaves the state unchanged;
stopping it while `Stopped` reports "not running" and leaves the state
`Stopped` — both operations are idempotent. -/
theorem claim_C6_lifecycle_idempotent (s : MetricsState) (q p : Nat)
    (htx : s.tx = true) (hport : s.port = some q) (po : Option Nat) :
    start_metrics_server p s = some (s, MetricsMsg.alreadyRunning q) ∧
      finish_metrics_server { tx := false, port := po } =
        ({ tx := false, port := po }, MetricsMsg.notRunning) := by
  constructor
  · simp [start_metrics_server, htx, hport]
  · simp [finish_metrics_server]

/-- Witness for C6 at the running state `⟨true, some 7⟩` and the stopped
state `⟨false, some 3⟩`. -/
theorem claim_C6_witness :
    start_metrics_server 9 { tx := true, port := some 7 } =
        some ({ tx := true, port := some 7 }, MetricsMsg.alreadyRunning 7) ∧
      finish_metrics_server { tx := false, port := some 3 } =
        ({ tx := false, port := some 3 }, MetricsMsg.notRunning) :=
  claim_C6_lifecycle_idempotent { tx := true, port := some 7 } 7 9 rfl rfl (some 3)

/-- Claim C8: `journal_gc` first forces a journal synchronization and
then runs a full garbage-collection pass, in that order; an engine error
in either step aborts the session fatally, with no retry and no partial
handling. -/
theorem claim_C8_journal_gc_order (syncRes gcRes : Except String Unit) :
    ((journal_gc_run syncRes gcRes).1.head? = some JCall.sync) ∧
      ((journal_gc_run syncRes gcRes).1 = [JCall.sync] ∨
        (journal_gc_run syncRes gcRes).1 = [JCall.sync, JCall.gc]) ∧
      (JCall.gc ∈ (journal_gc_run syncRes gcRes).1 ↔ syncRes = Except.ok ()) ∧
      (∀ e, syncRes = Except.error e →
        (journal_gc_run syncRes gcRes).1 = [JCall.sync] ∧
          (journal_gc_run syncRes gcRes).2 = some e) ∧
      (∀ e, syncRes = Except.ok () → gcRes = Except.error e →
        (journal_gc_run syncRes gcRes).2 = some e) ∧
      ((journal_gc_run syncRes gcRes).2 = none ↔
        (syncRes = Except.ok () ∧ gcRes = Except.ok ())) ∧
      ((journal_gc_run syncRes gcRes).1.count JCall.sync = 1 ∧
        (journal_gc_run syncRes gcRes).1.count JCall.gc ≤ 1) := by
  rcases syncRes with e | u
  · simp [journal_gc_run]
  · cases u
    rcases gcRes with e | u
    · simp [journal_gc_run]
    · cases u
      simp [journal_gc_run]

/-- Claim C9: the `StorageHandle` invariant "`tx` is `Some` implies
`port` is `Some`" holds after `new`/`create` and is preserved by
`start_metrics_server` and `finish_metrics_server`, so the
`port.unwrap()` calls in the already-running branch never panic; after
`finish_metrics_server`, `tx` is `None` while `port` keeps the last
started port. -/
theorem claim_C9_invariant (s : MetricsState) (p : Nat) (hInv : MetricsInv s) :
    MetricsInv newHandleState ∧ MetricsInv createHandleState ∧
      (start_metrics_server p s).isSome = true ∧
      (∀ s' m, start_metrics_server p s = some (s', m) → MetricsInv s') ∧
      MetricsInv (finish_metrics_server s).1 ∧
      (s.tx = true → (finish_metrics_server s).1.tx = false ∧
        (finish_metrics_server s).1.port = s.port) := by
  rcases s with ⟨tx, port⟩
  cases tx
  · refine ⟨(fun h => by cases h), (fun h => by cases h), ?_, ?_, ?_, ?_⟩
    · simp [start_metrics_server]
    · intro s' m h
      have h' : start_metrics_server p ⟨false, port⟩ =
          some ({ tx := true, port := some p }, MetricsMsg.started p) := rfl
      rw [h'] at h
      injection h with h3
      injection h3 with hs hm
      subst hs
      exact fun _ => rfl
    · simpa [finish_metrics_server] using hInv
    · intro h; cases h
  · obtain ⟨q, hq⟩ := Option.isSome_iff_exists.mp (hInv rfl)
    subst hq
    refine ⟨(fun h => by cases h), (fun h => by cases h), ?_, ?_, ?_, ?_⟩
    · simp [start_metrics_server]
    · intro s' m h
      have h' : start_metrics_server p ⟨true, some q⟩ =
          some (⟨true, some q⟩, MetricsMsg.alreadyRunning q) := rfl
      rw [h'] at h
      injection h with h3
      injection h3 with hs hm
      subst hs
      exact fun _ => rfl
    · intro h
      simp [finish_metrics_server] at h
    · intro _
      simp [finish_metrics_server]

/-- Witness for C9 at the state `⟨true, some 5⟩` and port `9`. -/
theorem claim_C9_witness :
    MetricsInv { tx := true, port := some 5 } ∧
      (MetricsInv newHandleState ∧ MetricsInv createHandleState ∧
        (start_metrics_server 9 { tx := true, port := some 5 }).isSome = true ∧
        (∀ s' m, start_metrics_server 9 { tx := true, port := some 5 } = some (s', m) →
          MetricsInv s') ∧
        MetricsInv (finish_metrics_server { tx := true, port := some 5 }).1 ∧
        (({ tx := true, port := some 5 } : MetricsState).tx = true →
          (finish_metrics_server { tx := true, port := some 5 }).1.tx = false ∧
            (finish_metrics_server { tx := true, port := some 5 }).1.port =
              ({ tx := true, port := some 5 } : MetricsState).port)) :=
  ⟨fun _ => rfl, claim_C9_invariant { tx := true, port := some 5 } 9 (fun _ => rfl)⟩

/-- Claim C10: the REPL dispatcher accepts `delete` and
`start_metrics_server` immediately followed by digits with no separating
whitespace — `delete42` deletes key 42 and `start_metrics_server8080`
starts the metrics server on port 8080; neither line is reported as an
invalid command. -/
theorem claim_C10_no_separator :
    handle_input "delete42" = ReplAction.delete 42 ∧
      handle_input "start_metrics_server8080" = ReplAction.startMetrics 8080 ∧
      handle_input "delete42" ≠ ReplAction.invalid "delete42" ∧
      handle_input "start_metrics_server8080" ≠
        ReplAction.invalid "start_metrics_server8080" := by
  decide

/-- Claim C1 (as frozen) fails on the code because the `u64` products
`count * size * 2` and `256 * count` wrap: at `C = 2^62`, `S = 1` the
capacity is `2^63` and `256 * C` wraps to `0`, so the ratio is left at
`0.01` although 1% of capacity is (mathematically) far below `256 * C`,
and the journal reservation falls short of `256 * C`. -/
theorem claim_C1_counterexample :
    ((create_storage_for_benchmark (2 ^ 62) 1).capacity : ℚ) / 100 <
        256 * 2 ^ 62 ∧
      (create_storage_for_benchmark (2 ^ 62) 1).journal_ratio = 1 / 100 ∧
      (create_storage_for_benchmark (2 ^ 62) 1).journal_ratio *
          ((create_storage_for_benchmark (2 ^ 62) 1).capacity : ℚ) <
        256 * 2 ^ 62 := by
  have h1 : create_storage_for_benchmark (2 ^ 62) 1 =
      { capacity := 2 ^ 63, journal_ratio := 1 / 100, total := 2 ^ 62 } := by
    rw [create_storage_for_benchmark]
    norm_num
  rw [h1]
  norm_num

/-- Claim C1, amended: for C ≥ 1, S ≥ 1 with no `u64` overflow
(`2·C·S < 2^64` and `256·C < 2^64`), `create_storage_for_benchmark`
derives capacity `2·C·S` and a journal ratio of `0.01`, except that when
1% of capacity is less than `256·C` bytes the ratio is raised to
`(256·C)/capacity`; hence the derived journal reservation
(ratio · capacity) is at least `256·C` bytes whenever `256·C` exceeds
1% of capacity. -/
theorem claim_C1_amended (C S : Nat) (hC : 1 ≤ C) (hS : 1 ≤ S)
    (hcap : 2 * C * S < 2 ^ 64) (hthr : 256 * C < 2 ^ 64) :
    (create_storage_for_benchmark C S).capacity = 2 * C * S ∧
      (¬ (((create_storage_for_benchmark C S).capacity : ℚ) / 100 < 256 * C) →
        (create_storage_for_benchmark C S).journal_ratio = 1 / 100) ∧
      ((((create_storage_for_benchmark C S).capacity : ℚ) / 100 < 256 * C) →
        (create_storage_for_benchmark C S).journal_ratio =
          (256 * C : ℚ) / ((create_storage_for_benchmark C S).capacity : ℚ)) ∧
      ((((create_storage_for_benchmark C S).capacity : ℚ) / 100 < 256 * C) →
        (256 * C : ℚ) ≤ (create_storage_for_benchmark C S).journal_ratio *
          ((create_storage_for_benchmark C S).capacity : ℚ)) := by
  have hCS : C * S < 2 ^ 64 := by
    calc C * S ≤ 2 * C * S := by nlinarith
    _ < 2 ^ 64 := hcap
  have htot : C * S % 2 ^ 64 = C * S := Nat.mod_eq_of_lt hCS
  have hcap' : C * S * 2 % 2 ^ 64 = 2 * C * S := by
    rw [show C * S * 2 = 2 * C * S by ring]
    exact Nat.mod_eq_of_lt hcap
  have hthr' : 256 * C % 2 ^ 64 = 256 * C := Nat.mod_eq_of_lt hthr
  have hpos : 0 < 2 * C * S := by positivity
  have hr : create_storage_for_benchmark C S =
      if (⌊((2 * C * S : Nat) : ℚ) * (1 / 100)⌋).toNat < 256 * C then
        { capacity := 2 * C * S
          journal_ratio := ((256 * C : Nat) : ℚ) / ((2 * C * S : Nat) : ℚ)
          total := C * S }
      else
        { capacity := 2 * C * S, journal_ratio := 1 / 100, total := C * S } := by
    rw [create_storage_for_benchmark]
    simp only [htot, hcap', hthr']
  have hcond : ((⌊((2 * C * S : Nat) : ℚ) * (1 / 100)⌋).toNat < 256 * C) ↔
      (((2 * C * S : Nat) : ℚ) / 100 < 256 * C) := by
    rw [mul_one_div]
    rw [Int.toNat_lt' (by positivity : 256 * C ≠ 0)]
    rw [Int.floor_lt]
    push_cast
    exact Iff.rfl
  by_cases hc : ((2 * C * S : Nat) : ℚ) / 100 < 256 * C
  · rw [hr, if_pos (hcond.mpr hc)]
    refine ⟨rfl, ?_, ?_, ?_⟩
    · intro hnot
      exact absurd (by push_cast at hc ⊢; exact hc) hnot
    · intro _
      push_cast
      rfl
    · intro _
      have hne : ((2 * C * S : Nat) : ℚ) ≠ 0 := by
        push_cast
        positivity
      rw [div_mul_cancel₀ _ hne]
      push_cast
      exact le_refl _
  · rw [hr, if_neg (fun h => hc (hcond.mp h))]
    refine ⟨rfl, fun _ => rfl, ?_, ?_⟩
    · intro habs
      exact absurd (by push_cast at habs ⊢; exact habs) hc
    · intro habs
      exact absurd (by push_cast at habs ⊢; exact habs) hc

/-- The constant `marching_len` is 100. -/
lemma marchingLen_eq : marchingLen = 100 := rfl

/-- While the counter stays below `marching_len - 1`, the WRBench loop
only writes and accumulates the written keys in the keystore. -/
lemma wrBenchGo_fill (n : Nat) : ∀ (i c : Nat) (ks rest : List Nat),
    c + n ≤ marchingLen - 1 →
    wrBenchGo (List.range' i n ++ rest) c ks =
      (List.range' i n).map BenchEvent.write ++
        wrBenchGo rest (c + n) (ks ++ List.range' i n) := by
  induction n with
  | zero => intro i c ks rest _; simp
  | succ n ih =>
    intro i c ks rest h
    have hc : c < marchingLen - 1 :=
      Nat.lt_of_lt_of_le (by omega : c < c + (n + 1)) h
    rw [List.range'_succ, List.cons_append]
    rw [wrBenchGo, if_pos hc]
    rw [ih (i + 1) (c + 1) (ks ++ [i]) rest (by omega)]
    have e1 : c + 1 + n = c + (n + 1) := by omega
    rw [e1]
    simp [List.append_assoc]

/-- One full window of 100 writes from state `(c = 0, keystore = [])`:
99 accumulating writes, then the 100th write followed by read-backs of
the 99 accumulated keys, after which the state is `(0, [])` again. -/
lemma wrBenchGo_window (b : Nat) (rest : List Nat) :
    wrBenchGo (List.range' b marchingLen ++ rest) 0 [] =
      windowEvents b ++ wrBenchGo rest 0 [] := by
  have hsplit : List.range' b marchingLen =
      List.range' b (marchingLen - 1) ++ [b + (marchingLen - 1)] := by
    have h := List.range'_append b (marchingLen - 1) 1 1
    simp only [one_mul, List.range'_one] at h
    rw [marchingLen_eq] at h ⊢
    norm_num at h ⊢
    exact h.symm
  rw [hsplit, List.append_assoc]
  rw [wrBenchGo_fill (marchingLen - 1) b 0 [] _ (by decide)]
  simp only [List.nil_append, Nat.zero_add, List.cons_append]
  rw [wrBenchGo, if_neg (by decide)]
  rw [windowEvents, List.append_assoc]

/-- The WRBench trace over `100 · w` keys decomposes into `w` complete
marching windows. -/
lemma wrBenchGo_windows (w : Nat) : ∀ b,
    wrBenchGo (List.range' b (marchingLen * w)) 0 [] =
      ((List.range w).map fun j => windowEvents (b + marchingLen * j)).flatten := by
  induction w with
  | zero => intro b; simp [wrBenchGo]
  | succ w ih =>
    intro b
    have hsplit : List.range' b (marchingLen * (w + 1)) =
        List.range' b marchingLen ++ List.range' (b + marchingLen) (marchingLen * w) := by
      have h := List.range'_append b marchingLen (marchingLen * w) 1
      simp only [one_mul] at h
      rw [show marchingLen * (w + 1) = marchingLen * w + marchingLen from by ring]
      exact h.symm
    rw [hsplit, wrBenchGo_window, ih (b + marchingLen)]
    rw [List.range_succ_eq_map]
    have hidx : ∀ j : Nat, b + marchingLen + marchingLen * j = b + marchingLen * (j + 1) := by
      intro j; ring
    have hfun : ((fun j => windowEvents (b + marchingLen * j)) ∘ Nat.succ) =
        fun j => windowEvents (b + marchingLen * (j + 1)) := by
      funext j
      simp [Function.comp, Nat.succ_eq_add_one]
    rw [List.map_cons, List.map_map, hfun, List.flatten_cons, Nat.mul_zero, Nat.add_zero]
    simp only [hidx]

set_option maxRecDepth 4000 in
/-- Claim C2 (as frozen) fails on the code: in the window of writes
0..99, the 100th key (99) is written but never pushed into the keystore,
so it is never read back — the claim demands every key of the window be
read back exactly once. -/
theorem claim_C2_counterexample :
    ((wrBenchTrace 100).count (BenchEvent.write 99) = 1) ∧
      ((wrBenchTrace 100).count (BenchEvent.read 99) = 0) ∧
      ((wrBenchTrace 100).count (BenchEvent.read 0) = 1) := by
  decide

/-- Claim C2, amended: in the WRBench write+read workload, writes
proceed sequentially and every 100 consecutive writes form a window;
after the 100th write in a window, the first 99 keys of that window are
read back exactly once each (the window's 100th key is never read),
then the window is cleared and a new window starts.  Formally: the trace
over `100·w` keys is the concatenation of `w` window blocks, each block
being the 99 accumulating writes, the 100th write, then one read of
each of the first 99 keys in order. -/
theorem claim_C2_amended (w : Nat) :
    wrBenchTrace (marchingLen * w) =
      ((List.range w).map fun j => windowEvents (marchingLen * j)).flatten := by
  rw [wrBenchTrace, List.range_eq_range', wrBenchGo_windows w 0]
  simp only [Nat.zero_add]

/-- Witness for C1 (amended) at `C = 10`, `S = 100`: capacity 2000,
1% of capacity (20) is below 2560, so the ratio is raised to 2560/2000
and the reservation is exactly 2560. -/
theorem claim_C1_witness :
    ((1 ≤ 10 ∧ 1 ≤ 100) ∧ 2 * 10 * 100 < 2 ^ 64 ∧ 256 * 10 < 2 ^ 64) ∧
      ((create_storage_for_benchmark 10 100).capacity = 2 * 10 * 100 ∧
        (¬ (((create_storage_for_benchmark 10 100).capacity : ℚ) / 100 < 256 * (10 : Nat)) →
          (create_storage_for_benchmark 10 100).journal_ratio = 1 / 100) ∧
        ((((create_storage_for_benchmark 10 100).capacity : ℚ) / 100 < 256 * (10 : Nat)) →
          (create_storage_for_benchmark 10 100).journal_ratio =
            (256 * (10 : Nat) : ℚ) / ((create_storage_for_benchmark 10 100).capacity : ℚ)) ∧
        ((((create_storage_for_benchmark 10 100).capacity : ℚ) / 100 < 256 * (10 : Nat)) →
          (256 * (10 : Nat) : ℚ) ≤ (create_storage_for_benchmark 10 100).journal_ratio *
            ((create_storage_for_benchmark 10 100).capacity : ℚ))) :=
  ⟨⟨⟨by norm_num, by norm_num⟩, by norm_num, by norm_num⟩,
    claim_C1_amended 10 100 (by norm_num) (by norm_num) (by norm_num) (by norm_num)⟩

/-- Any value captured by `put_regex` is NUL-free: the value group is
either matched by `[^\x00]+` directly, or (in the backtracking case) is
a single whitespace character. -/
lemma parsePut_no_nul (l : List Char) (k : Nat) (v : List Char)
    (h : parsePut l = some (k, v)) : ∀ c ∈ v, isNulChar c = false := by
  unfold parsePut at h
  split at h
  case h_2 => exact absurd h (by simp)
  case h_1 r =>
    simp only [] at h
    split at h
    · exact absurd h (by simp)
    · split at h
      · exact absurd h (by simp)
      · split at h
        · exact absurd h (by simp)
        · split at h
          · split at h
            · injection h with h'
              injection h' with hk hv
              subst hv
              intro c hc
              have hc' : c = (((r.dropWhile isWsChar).dropWhile isDigitChar).takeWhile
                  isWsChar).getLastD ' ' := by
                simpa using hc
              subst hc'
              apply ws_not_nul
              apply getLastD_pred _ ' ' (by decide)
              intro c' hc'
              exact List.mem_takeWhile_imp hc'
            · exact absurd h (by simp)
          · split at h
            · exact absurd h (by simp)
            · rename_i hnul
              injection h with h'
              injection h' with hk hv
              subst hv
              intro c hc
              rcases Bool.eq_false_or_eq_true (isNulChar c) with ht | hf
              · exact absurd (List.any_eq_true.mpr ⟨c, hc, ht⟩) hnul
              · exact hf

/-- Claim C5, amended: every put issued from a REPL line carries a value
that is valid UTF-8 (inherent in the string type: REPL input arrives as
`&str`) and contains no embedded NUL byte, enforced by the `[^\x00]+`
value group of `put_regex`; the one-shot `Put` command, by contrast,
forwards its value to the engine without any NUL check (see the
counterexample), its NUL-freeness resting on the operating system's
argv conventions rather than on this code. -/
theorem claim_C5_amended (input : String) (k : Nat) (v : String)
    (h : handle_input input = ReplAction.put k v) :
    ∀ c ∈ v.data, isNulChar c = false := by
  unfold handle_input at h
  cases hp : parsePut input.data with
  | some kv =>
    obtain ⟨k', v'⟩ := kv
    simp only [hp] at h
    split at h
    · exact ReplAction.noConfusion h
    · split at h
      · injection h with hk hv
        subst hv
        intro c hc
        exact parsePut_no_nul input.data k' v' hp c hc
      · exact ReplAction.noConfusion h
  | none =>
    simp only [hp] at h
    cases hg : parseGet input.data with
    | some k' =>
      simp only [hg] at h
      split at h <;> exact ReplAction.noConfusion h
    | none =>
      simp only [hg] at h
      cases hd : parseDelete input.data with
      | some k' =>
        simp only [hd] at h
        split at h <;> exact ReplAction.noConfusion h
      | none =>
        simp only [hd] at h
        cases hm : parseMetricsSrv input.data with
        | some p' =>
          simp only [hm] at h
          split at h <;> exact ReplAction.noConfusion h
        | none =>
          simp only [hm] at h
          repeat' split at h
          all_goals exact ReplAction.noConfusion h

/-- Witness for C5 (amended) at the REPL line `put 1 x`. -/
theorem claim_C5_witness :
    handle_input "put 1 x" = ReplAction.put 1 "x" ∧
      ∀ c ∈ ("x" : String).data, isNulChar c = false :=
  ⟨by decide, claim_C5_amended "put 1 x" 1 "x" (by decide)⟩

/-- Claim C5 (as frozen) fails on the code for the one-shot `Put`
command: `main` passes `opt.data` to `handle.put` with no NUL check, so
a value with an embedded NUL byte (here `"a\x00b"`) reaches the engine
and is stored verbatim. -/
theorem claim_C5_counterexample :
    (runPutCommand 7 (String.mk ['a', Char.ofNat 0, 'b']) []).2 =
        [(7, String.mk ['a', Char.ofNat 0, 'b'])] ∧
      (String.mk ['a', Char.ofNat 0, 'b']).data.any isNulChar = true := by
  decide

/-- When a line decomposes as `put`, a whitespace run, a digit run,
another whitespace run, and a NUL-free remainder that does not begin
with whitespace, `put_regex` captures exactly the digit run as the key
and exactly the remainder as the value. -/
lemma parsePut_decompose (w1 ds w2 rest : List Char)
    (hw1 : w1 ≠ []) (hw1p : ∀ c ∈ w1, isWsChar c = true)
    (hds : ds ≠ []) (hdsp : ∀ c ∈ ds, isDigitChar c = true)
    (hw2 : w2 ≠ []) (hw2p : ∀ c ∈ w2, isWsChar c = true)
    (hrest : rest ≠ []) (hrnul : ∀ c ∈ rest, isNulChar c = false)
    (hrhead : ∀ c l', rest = c :: l' → isWsChar c = false) :
    parsePut ('p' :: 'u' :: 't' :: (w1 ++ (ds ++ (w2 ++ rest)))) =
      some (digitsToNat ds, rest) := by
  obtain ⟨a0, w1', rfl⟩ := List.exists_cons_of_ne_nil hw1
  obtain ⟨d0, ds', rfl⟩ := List.exists_cons_of_ne_nil hds
  obtain ⟨b0, w2', rfl⟩ := List.exists_cons_of_ne_nil hw2
  obtain ⟨e0, rest', rfl⟩ := List.exists_cons_of_ne_nil hrest
  have hd0 : isWsChar d0 = false := digit_not_ws (hdsp d0 (List.mem_cons_self d0 ds'))
  have hb0 : isDigitChar b0 = false := ws_not_digit (hw2p b0 (List.mem_cons_self b0 w2'))
  have he0 : isWsChar e0 = false := hrhead e0 rest' rfl
  have e1t : ((a0 :: w1') ++ ((d0 :: ds') ++ ((b0 :: w2') ++ (e0 :: rest')))).takeWhile
      isWsChar = a0 :: w1' := by
    rw [show (d0 :: ds') ++ ((b0 :: w2') ++ (e0 :: rest')) =
        d0 :: (ds' ++ ((b0 :: w2') ++ (e0 :: rest'))) from rfl]
    exact takeWhile_block (a0 :: w1') d0 _ hw1p hd0
  have e1d : ((a0 :: w1') ++ ((d0 :: ds') ++ ((b0 :: w2') ++ (e0 :: rest')))).dropWhile
      isWsChar = d0 :: (ds' ++ ((b0 :: w2') ++ (e0 :: rest'))) := by
    rw [show (d0 :: ds') ++ ((b0 :: w2') ++ (e0 :: rest')) =
        d0 :: (ds' ++ ((b0 :: w2') ++ (e0 :: rest'))) from rfl]
    exact dropWhile_block (a0 :: w1') d0 _ hw1p hd0
  have e2t : ((d0 :: ds') ++ ((b0 :: w2') ++ (e0 :: rest'))).takeWhile
      isDigitChar = d0 :: ds' := by
    rw [show (b0 :: w2') ++ (e0 :: rest') = b0 :: (w2' ++ (e0 :: rest')) from rfl]
    exact takeWhile_block (d0 :: ds') b0 _ hdsp hb0
  have e2d : ((d0 :: ds') ++ ((b0 :: w2') ++ (e0 :: rest'))).dropWhile
      isDigitChar = b0 :: (w2' ++ (e0 :: rest')) := by
    rw [show (b0 :: w2') ++ (e0 :: rest') = b0 :: (w2' ++ (e0 :: rest')) from rfl]
    exact dropWhile_block (d0 :: ds') b0 _ hdsp hb0
  have e3t : ((b0 :: w2') ++ (e0 :: rest')).takeWhile isWsChar = b0 :: w2' :=
    takeWhile_block (b0 :: w2') e0 _ hw2p he0
  have e3d : ((b0 :: w2') ++ (e0 :: rest')).dropWhile isWsChar = e0 :: rest' :=
    dropWhile_block (b0 :: w2') e0 _ hw2p he0
  have e2d' : (d0 :: (ds' ++ ((b0 :: w2') ++ (e0 :: rest')))).dropWhile
      isDigitChar = b0 :: (w2' ++ (e0 :: rest')) := by
    rw [show d0 :: (ds' ++ ((b0 :: w2') ++ (e0 :: rest'))) =
        (d0 :: ds') ++ ((b0 :: w2') ++ (e0 :: rest')) from rfl]
    exact e2d
  have e2t' : (d0 :: (ds' ++ ((b0 :: w2') ++ (e0 :: rest')))).takeWhile
      isDigitChar = d0 :: ds' := by
    rw [show d0 :: (ds' ++ ((b0 :: w2') ++ (e0 :: rest'))) =
        (d0 :: ds') ++ ((b0 :: w2') ++ (e0 :: rest')) from rfl]
    exact e2t
  have e3t' : (b0 :: (w2' ++ (e0 :: rest'))).takeWhile isWsChar = b0 :: w2' := by
    rw [show b0 :: (w2' ++ (e0 :: rest')) = (b0 :: w2') ++ (e0 :: rest') from rfl]
    exact e3t
  have e3d' : (b0 :: (w2' ++ (e0 :: rest'))).dropWhile isWsChar = e0 :: rest' := by
    rw [show b0 :: (w2' ++ (e0 :: rest')) = (b0 :: w2') ++ (e0 :: rest') from rfl]
    exact e3d
  have hany : ((e0 :: rest').any isNulChar) = false := by
    rcases Bool.eq_false_or_eq_true ((e0 :: rest').any isNulChar) with ht | hf
    · obtain ⟨c, hc, hct⟩ := List.any_eq_true.mp ht
      exact absurd hct (by simp [hrnul c hc])
    · exact hf
  simp only [parsePut, e1t, e1d, e2t', e2d', e3t', e3d', hany, List.isEmpty_cons,
    Bool.false_eq_true, if_false]

/-- Claim C7, amended: for every REPL line of the form `put`,
whitespace, a decimal key (whose value fits in `u128`, as the grammar's
`uint128` requires), whitespace, then a non-empty NUL-free remainder
that does not itself begin with a whitespace character, the dispatcher
stores that key with the value equal to the entire remainder, spaces
included.  (When the remainder begins with whitespace, the greedy `\s+`
of `put_regex` absorbs that leading whitespace into the separator — see
the counterexample.) -/
theorem claim_C7_amended (w1 ds w2 rest : List Char)
    (hw1 : w1 ≠ []) (hw1p : ∀ c ∈ w1, isWsChar c = true)
    (hds : ds ≠ []) (hdsp : ∀ c ∈ ds, isDigitChar c = true)
    (hw2 : w2 ≠ []) (hw2p : ∀ c ∈ w2, isWsChar c = true)
    (hrest : rest ≠ []) (hrnul : ∀ c ∈ rest, isNulChar c = false)
    (hrhead : ∀ c l', rest = c :: l' → isWsChar c = false)
    (hkey : digitsToNat ds < 2 ^ 128) :
    handle_input (String.mk ('p' :: 'u' :: 't' :: (w1 ++ (ds ++ (w2 ++ rest))))) =
      ReplAction.put (digitsToNat ds) (String.mk rest) := by
  have hp : parsePut (String.mk
      ('p' :: 'u' :: 't' :: (w1 ++ (ds ++ (w2 ++ rest))))).data =
      some (digitsToNat ds, rest) :=
    parsePut_decompose w1 ds w2 rest hw1 hw1p hds hdsp hw2 hw2p hrest hrnul hrhead
  unfold handle_input
  simp only [hp]
  rw [if_neg (by omega : ¬ 2 ^ 128 ≤ digitsToNat ds)]
  simp [is_valid_characters]

/-- Witness for C7 (amended) at the REPL line `put 42 hi`
(`w1 = " "`, `ds = "42"`, `w2 = " "`, remainder `"hi"`). -/
theorem claim_C7_witness :
    (([' '] : List Char) ≠ [] ∧ (∀ c ∈ ([' '] : List Char), isWsChar c = true) ∧
      (['4', '2'] : List Char) ≠ [] ∧
      (∀ c ∈ (['4', '2'] : List Char), isDigitChar c = true) ∧
      (∀ c ∈ (['h', 'i'] : List Char), isNulChar c = false) ∧
      digitsToNat ['4', '2'] < 2 ^ 128) ∧
      handle_input (String.mk
          ('p' :: 'u' :: 't' :: ([' '] ++ (['4', '2'] ++ ([' '] ++ ['h', 'i']))))) =
        ReplAction.put (digitsToNat ['4', '2']) (String.mk ['h', 'i']) :=
  ⟨⟨by decide, by decide, by decide, by decide, by decide, by decide⟩,
    claim_C7_amended [' '] ['4', '2'] [' '] ['h', 'i']
      (by decide) (by decide) (by decide) (by decide) (by decide) (by decide)
      (by decide) (by decide)
      (fun c l' h => by
        cases h
        decide)
      (by decide)⟩

/-- Claim C7 (as frozen) fails on the code when the remainder begins
with whitespace: the line `put 42  x` (two spaces) is of the claimed
form with remainder `" x"` (non-empty, NUL-free), yet the dispatcher
stores the value `"x"`, not the entire remainder `" x"` — the greedy
`\s+` absorbs the second space. -/
theorem claim_C7_counterexample :
    ("put 42  x" : String).data =
        'p' :: 'u' :: 't' :: ([' '] ++ (['4', '2'] ++ ([' '] ++ [' ', 'x']))) ∧
      (∀ c ∈ ([' '] : List Char), isWsChar c = true) ∧
      (∀ c ∈ (['4', '2'] : List Char), isDigitChar c = true) ∧
      ([' ', 'x'] : List Char) ≠ [] ∧
      (∀ c ∈ ([' ', 'x'] : List Char), isNulChar c = false) ∧
      handle_input "put 42  x" = ReplAction.put 42 "x" ∧
      ("x" : String) ≠ String.mk [' ', 'x'] := by
  refine ⟨by decide, by decide, by decide, by decide, by decide, by decide, ?_⟩
  decide
